import Mathlib

/-!
Verification development for the copilot-sdk connection/session runtime
(TypeScript sources under src/nodejs). Pure data and the session-level
operations are embedded shallowly: asynchronous handlers that may throw are
modelled as functions into `Except String _` (a thrown error or promise
rejection is `.error msg`), the JSON-RPC wire is modelled by passing the
outcome of the remote request explicitly, and event delivery is modelled by
explicit traces of events in wire-arrival order.
-/

namespace CopilotSDK

/-! ### Data model (src/nodejs/src/types.ts)

`SessionEvent` is treated as an opaque tagged union: only the `type` tag is
inspected by the runtime (`sendAndWait` matches on "assistant.message" and
"session.idle"), the payload is carried opaquely as a string. -/

structure SessionEvent where
  type : String
  data : String
deriving DecidableEq, Repr

/-- Result type tags of `ToolResultType` in types.ts. -/
inductive ToolResultType where
  | success
  | failure
  | rejected
  | denied
deriving DecidableEq, Repr

/-- The structured tool result object (`ToolResultObject` in types.ts); the
fields not inspected by the dispatch path are carried opaquely. -/
structure ToolResultObject where
  textResultForLlm : String
  resultType : ToolResultType
  error : Option String
deriving DecidableEq, Repr

/-- Inbound tool-call envelope (`ToolInvocation` in types.ts); `arguments` is
an opaque wire value. -/
structure ToolInvocation where
  sessionId : String
  toolCallId : String
  toolName : String
  arguments : String
deriving DecidableEq, Repr

/-- A tool handler (`ToolHandler` in types.ts): receives the call arguments
and the invocation metadata; it may return a (normalized) result object or
throw, the throw being modelled as `Except.error` carrying the message. -/
def ToolHandler : Type :=
  String → ToolInvocation → Except String ToolResultObject

/-- Decision kinds of `PermissionRequestResult.kind` in types.ts. -/
inductive PermissionResultKind where
  | approved
  | deniedByRules
  | deniedNoApprovalRuleAndCouldNotRequestFromUser
  | deniedInteractivelyByUser
deriving DecidableEq, Repr

/-- `PermissionRequestResult` in types.ts (the optional `rules` payload is not
inspected by the dispatch path and is omitted). -/
structure PermissionRequestResult where
  kind : PermissionResultKind
deriving DecidableEq, Repr

/-- Inbound permission request (`PermissionRequest` in types.ts), opaque to
the dispatch path. -/
structure PermissionRequest where
  kind : String
deriving DecidableEq, Repr

/-- A permission handler (`PermissionHandler` in types.ts): receives the
request and `\x7bsessionId\x7d`; a throw or promise rejection is `.error`. -/
def PermissionHandler : Type :=
  PermissionRequest → String → Except String PermissionRequestResult

/-! ### Session state (src/nodejs/src/session.ts)

`CopilotSession` owns `eventHandlers : Set<SessionEventHandler>`,
`toolHandlers : Map<string, ToolHandler>` and an optional
`permissionHandler`. Event handlers are identified by handler ids (`Nat`):
a JavaScript `Set` of function values keyed by identity, kept in insertion
order with no duplicates, which `eventHandlers : List Nat` mirrors via
`addEventHandler` below. The tool-handler map is an association list with
first-match lookup. -/

structure CopilotSession where
  sessionId : String
  eventHandlers : List Nat
  toolHandlers : List (String × ToolHandler)
  permissionHandler : Option PermissionHandler

/-- `CopilotSession.getToolHandler` (session.ts lines 240-242): look the name
up in the tool-handler map. -/
def getToolHandler (s : CopilotSession) (name : String) : Option ToolHandler :=
  s.toolHandlers.lookup name

/-- `session.on(handler)` (session.ts lines 190-195): `Set.add` semantics —
appends the handler unless the same function value is already subscribed. -/
def addEventHandler (subs : List Nat) (h : Nat) : List Nat :=
  if h ∈ subs then subs else subs ++ [h]

/-- The fixed denial returned when no permission handler is available or the
handler fails (session.ts lines 267 and 277). -/
def fixedDenial : PermissionRequestResult :=
  { kind := .deniedNoApprovalRuleAndCouldNotRequestFromUser }

/-- `CopilotSession._handlePermissionRequest` (session.ts lines 264-279): no
registered handler yields the fixed denial; a registered handler is invoked
with the request and `\x7bsessionId\x7d`, and a throw or rejection is caught
and converted to the same fixed denial. The method itself never rejects:
its embedding is a total function into `PermissionRequestResult`. -/
def handlePermissionRequest (s : CopilotSession) (request : PermissionRequest) :
    PermissionRequestResult :=
  match s.permissionHandler with
  | none => fixedDenial
  | some handler =>
    match handler request s.sessionId with
    | .ok result => result
    | .error _ => fixedDenial

/-- Local-state clearing performed at the end of `session.destroy()`
(session.ts lines 328-330). -/
def clearLocalState (s : CopilotSession) : CopilotSession :=
  { s with eventHandlers := [], toolHandlers := [], permissionHandler := none }

/-- `session.destroy()` (session.ts lines 324-331): `await sendRequest` then
clear local state. The outcome of the remote `session.destroy` request is the
explicit argument `remote`; when the request rejects, the `await` rethrows
and the three clearing statements after it are not executed, so the session
state is returned unchanged next to the propagated error. -/
def destroy (s : CopilotSession) (remote : Except String Unit) :
    Except String Unit × CopilotSession :=
  match remote with
  | .error e => (.error e, s)
  | .ok _ => (.ok (), clearLocalState s)

/-! ### Tool-call dispatch (Dispatch Bridge) -/

/-- The structured failure result shape
`\x7bresultType: "failure", error: msg\x7d`. -/
def failureResult (msg : String) : ToolResultObject :=
  { textResultForLlm := "", resultType := .failure, error := some msg }

/-- Modelled from the spec: `CopilotClient.handleToolCallRequest` lives in
client.ts, which is not under src/ (only its unit test
src/nodejs/test/client.test.ts lines 9-29 and `CopilotSession.getToolHandler`
are). Spec section 4.6: look up the tool name in the target Session's handler
map; if absent respond with the structured failure result
`\x7bresultType: "failure", error: "tool \x27<name>\x27 not supported"\x7d`;
if present invoke the handler with the call arguments and invocation
metadata; if the handler throws, convert to the same failure-result shape
carrying the handler's error message. The dispatch path never throws and
produces exactly one response per request: the embedding is a total function
returning one `ToolResultObject`. -/
def handleToolCallRequest (s : CopilotSession) (inv : ToolInvocation) :
    ToolResultObject :=
  match getToolHandler s inv.toolName with
  | none => failureResult ("tool \x27" ++ inv.toolName ++ "\x27 not supported")
  | some handler =>
    match handler inv.arguments inv with
    | .ok result => result
    | .error msg => failureResult msg

/-! ### sendAndWait (session.ts lines 119-162)

`sendAndWait` registers a listener before sending, sets `sendStarted := true`
synchronously together with initiating the send (no event can be delivered in
between, the two statements run in one synchronous stretch), then awaits the
idle promise. The listener closure mutates `sendStarted`,
`lastAssistantMessage` and resolves the idle promise; its mutable
environment is `WaitState` and the closure body is `onEvent`. A run of the
wait is a fold of `onEvent` over the events delivered to the listener in
wire-arrival order: first those delivered before the send began (with
`sendStarted = false`), then those after. -/

structure WaitState where
  sendStarted : Bool
  lastAssistantMessage : Option SessionEvent
  idleResolved : Bool
deriving DecidableEq, Repr

/-- The listener body registered by `sendAndWait` (session.ts lines 132-140):
events are counted only once `sendStarted` is set; an "assistant.message"
event replaces `lastAssistantMessage`; a "session.idle" event resolves the
idle promise. -/
def onEvent (st : WaitState) (e : SessionEvent) : WaitState :=
  if st.sendStarted then
    if e.type = "assistant.message" then
      { st with lastAssistantMessage := some e }
    else if e.type = "session.idle" then
      { st with idleResolved := true }
    else st
  else st

/-- Await of the idle promise over the events delivered after the send began:
process events in order until the first one that resolves the idle promise;
`some r` means the wait resolved with `lastAssistantMessage = r` at that
moment, `none` means the idle promise is still pending after the whole
trace. -/
def waitForIdle (st : WaitState) : List SessionEvent → Option (Option SessionEvent)
  | [] => none
  | e :: rest =>
    let st2 := onEvent st e
    if st2.idleResolved then some st2.lastAssistantMessage
    else waitForIdle st2 rest

/-- One run of `sendAndWait` without a timeout: `pre` are the events
delivered to the listener before `sendStarted := true` ran, `post` those
delivered after the send began. The result is `some r` when the wait
resolved (with the value `sendAndWait` returns), `none` when it is still
pending. -/
def sendAndWaitModel (pre post : List SessionEvent) : Option (Option SessionEvent) :=
  let st1 := pre.foldl onEvent { sendStarted := false, lastAssistantMessage := none, idleResolved := false }
  waitForIdle { st1 with sendStarted := true } post

/-- Right-biased-towards-the-first-argument choice on options. -/
def orElseOpt (x y : Option SessionEvent) : Option SessionEvent :=
  match x with
  | some a => some a
  | none => y

/-- The most recent event of type "assistant.message" in a trace (the value
`lastAssistantMessage` holds after folding the trace). -/
def lastAssistantIn : List SessionEvent → Option SessionEvent
  | [] => none
  | e :: rest =>
    orElseOpt (lastAssistantIn rest)
      (if e.type = "assistant.message" then some e else none)

/-- The timeout rejection raised by `sendAndWait` (session.ts line 151). -/
def timeoutMessage (t : Nat) : String :=
  "Timeout after " ++ toString t ++ "ms waiting for session.idle"

/-- The race of the idle promise against the timer (session.ts lines
149-153): each post-send event carries its delivery time (milliseconds since
the wait began). The timer fires at `timeout`; it wins against any event
delivered at or after that instant and against a trace that never resolves
the idle promise. -/
def raceIdle (st : WaitState) (timeout : Nat) :
    List (Nat × SessionEvent) → Except String (Option SessionEvent)
  | [] => .error (timeoutMessage timeout)
  | (t, e) :: rest =>
    if timeout ≤ t then .error (timeoutMessage timeout)
    else
      let st2 := onEvent st e
      if st2.idleResolved then .ok st2.lastAssistantMessage
      else raceIdle st2 timeout rest

/-- Outcome of a `sendAndWait` run with a finite timeout. `sendCount` is the
number of `session.send` requests issued during the run and `sendCancelled`
whether the run cancelled the issued send: the body issues the send once
(line 146) before racing, and the timeout path only rejects the race; the
`finally` block (line 160) merely unsubscribes the listener, so the send is
neither cancelled, retried, nor un-sent. -/
structure TimedRun where
  outcome : Except String (Option SessionEvent)
  sendCount : Nat
  sendCancelled : Bool
deriving Repr

/-- One run of `sendAndWait` with a finite timeout (session.ts lines
142-156). -/
def sendAndWaitWithTimeout (pre : List SessionEvent)
    (post : List (Nat × SessionEvent)) (timeout : Nat) : TimedRun :=
  let st1 := pre.foldl onEvent { sendStarted := false, lastAssistantMessage := none, idleResolved := false }
  { outcome := raceIdle { st1 with sendStarted := true } timeout post
    sendCount := 1
    sendCancelled := false }

/-! ### Event dispatch (session.ts lines 203-211)

`_dispatchEvent` iterates over the subscriber set in insertion order and
invokes each handler inside try/catch; a handler that throws is caught (the
catch body is empty) and iteration continues. `behavior i e` is what handler
`i` does on event `e` (`.error msg` models a throw); the dispatch returns the
invocation trace — which handler ran, in which order, with which outcome —
and is a total function: it never throws. -/

def dispatchEvent (behavior : Nat → SessionEvent → Except String Unit)
    (subs : List Nat) (e : SessionEvent) : List (Nat × Except String Unit) :=
  match subs with
  | [] => []
  | i :: rest => (i, behavior i e) :: dispatchEvent behavior rest e

/-! ### URL/Target Resolver

Modelled from the spec: the resolver lives in `CopilotClient`'s constructor
in client.ts, which is not under src/; its unit tests
(src/nodejs/test/client.test.ts lines 31-150) and the option declarations
(types.ts `CopilotClientOptions`) are the in-repo record of its behavior.
Spec sections 4.1 and 6: accepted remote-target forms are `<port>`,
`<host>:<port>`, `http://<host>:<port>`, `https://<host>:<port>`; a missing
host defaults to `localhost`; a string matching no form fails with
`InvalidTarget` (message "Invalid cliUrl format"), a parsed port outside
[1, 65535] — including 0 and negatives — fails with `InvalidPort` (message
"Invalid port in cliUrl"); a remote target together with an explicit
`cliPath` or an explicit `useStdio` fails with `ConflictingConfig` (message
"cliUrl is mutually exclusive"); a resolved remote target is marked
externally managed. Parsing is implemented on `List Char`. -/

inductive ConfigError where
  | invalidTarget
  | invalidPort
  | conflictingConfig
deriving DecidableEq, Repr

/-- Base-10 value of a character list read as digits. -/
def digitsVal (l : List Char) : Nat :=
  l.foldl (fun acc c => acc * 10 + (c.toNat - 48)) 0

/-- Numeric value of a digit character list; `none` when empty or containing
a non-digit. -/
def parseNatDigits (l : List Char) : Option Nat :=
  if l = [] then none
  else if l.all (fun c => c.isDigit) then some (digitsVal l)
  else none

/-- Port parsing: an optional leading minus sign followed by digits, as a
signed integer (so "-1" parses to the out-of-range integer -1 rather than
failing to match the grammar, matching the "invalid port - negative" unit
test which expects an invalid-port failure). -/
def parsePortChars (l : List Char) : Option Int :=
  match l with
  | [] => none
  | c :: rest =>
    if c = '-' then (parseNatDigits rest).map (fun n => -(Int.ofNat n))
    else (parseNatDigits (c :: rest)).map (fun n => Int.ofNat n)

/-- Does `p` occur at the start of `l`? -/
def beginsWith : List Char → List Char → Bool
  | [], _ => true
  | _ :: _, [] => false
  | p :: ps, c :: cs => p = c && beginsWith ps cs

/-- The characters of "http://". -/
def httpSchemeChars : List Char :=
  ['h', 't', 't', 'p', ':', '/', '/']

/-- The characters of "https://". -/
def httpsSchemeChars : List Char :=
  ['h', 't', 't', 'p', 's', ':', '/', '/']

/-- Strip a leading "http://" or "https://" scheme; returns whether a scheme
was present and the remainder. -/
def stripScheme (l : List Char) : Bool × List Char :=
  if beginsWith httpSchemeChars l then (true, l.drop 7)
  else if beginsWith httpsSchemeChars l then (true, l.drop 8)
  else (false, l)

/-- Split at each colon (the shape of `"x:y".split(":")`). -/
def splitOnColon : List Char → List (List Char)
  | [] => [[]]
  | c :: rest =>
    if c = ':' then [] :: splitOnColon rest
    else
      match splitOnColon rest with
      | [] => [[c]]
      | h :: t => (c :: h) :: t

/-- Resolution of the colon-separated pieces of a (scheme-stripped) target:
a single piece is a bare port (only when no scheme was present, since the
scheme forms require `HOST:PORT`), two pieces are host and port, anything
else matches no accepted form. The port must be an integer in [1, 65535]. -/
def resolveSplit (hadScheme : Bool) :
    List (List Char) → Except ConfigError (List Char × Nat)
  | [portStr] =>
    if hadScheme then .error .invalidTarget
    else
      match parsePortChars portStr with
      | none => .error .invalidTarget
      | some p =>
        if 1 ≤ p ∧ p ≤ 65535 then .ok ("localhost".data, p.toNat)
        else .error .invalidPort
  | [host, portStr] =>
    if host = [] then .error .invalidTarget
    else
      match parsePortChars portStr with
      | none => .error .invalidTarget
      | some p =>
        if 1 ≤ p ∧ p ≤ 65535 then .ok (host, p.toNat)
        else .error .invalidPort
  | _ => .error .invalidTarget

/-- Modelled from the spec: remote-target resolution. A bare `<port>` (no
scheme) defaults the host to `localhost`; `<host>:<port>` and the two scheme
forms recover the host and port; the port must be an integer in
[1, 65535]. -/
def parseTargetChars (l : List Char) : Except ConfigError (List Char × Nat) :=
  resolveSplit (stripScheme l).1 (splitOnColon (stripScheme l).2)

/-- String-level entry point of the resolver. -/
def parseCliUrl (url : String) : Except ConfigError (String × Nat) :=
  match parseTargetChars url.data with
  | .error e => .error e
  | .ok (host, port) => .ok (String.mk host, port)

/-- The constructor options the resolver inspects (types.ts
`CopilotClientOptions`): `useStdio = some b` records an explicit
transport-mode override, `none` its absence. -/
structure ClientOptions where
  cliPath : Option String := none
  cliUrl : Option String := none
  useStdio : Option Bool := none

/-- The resolved client configuration: `actualHost`/`actualPort`/
`isExternalServer` are the internal fields the unit tests read;
`spawnedDuringConstruction` counts processes spawned while resolving (the
constructor only parses and records — it never spawns; spawning happens in
`start`). -/
structure ResolvedClient where
  actualHost : String
  actualPort : Nat
  isExternalServer : Bool
  useStdio : Bool
  spawnedDuringConstruction : Nat
deriving DecidableEq, Repr

/-- Modelled from the spec: client construction / target resolution. With a
remote target, an explicit `cliPath` or explicit `useStdio` is rejected as
conflicting before anything else; otherwise the target is parsed, the client
is marked externally managed and its transport forced off stdio. Without a
remote target the client is locally managed (`useStdio` defaults to true).
All failures are synchronous constructor throws, modelled as `.error`. -/
def resolveClient (opts : ClientOptions) : Except ConfigError ResolvedClient :=
  match opts.cliUrl with
  | some url =>
    if opts.cliPath.isSome ∨ opts.useStdio.isSome then .error .conflictingConfig
    else
      match parseCliUrl url with
      | .error e => .error e
      | .ok (host, port) =>
        .ok { actualHost := host, actualPort := port, isExternalServer := true,
              useStdio := false, spawnedDuringConstruction := 0 }
  | none =>
    .ok { actualHost := "localhost", actualPort := 0, isExternalServer := false,
          useStdio := opts.useStdio.getD true, spawnedDuringConstruction := 0 }

/-- Does a character list match the spec's remote-target grammar
structurally: `PORT`, `HOST:PORT`, or `scheme://HOST:PORT` with scheme http
or https, where HOST is nonempty and PORT is a signed integer literal (its
range is a separate, later check)? -/
def matchesTargetGrammar (l : List Char) : Bool :=
  let hadScheme := (stripScheme l).1
  match splitOnColon (stripScheme l).2 with
  | [portStr] => !hadScheme && (parsePortChars portStr).isSome
  | [host, portStr] => !(host = []) && (parsePortChars portStr).isSome
  | _ => false

/-- The port integer carried by a target string that matches the grammar
structurally (the value whose range the resolver then checks). -/
def targetPort (l : List Char) : Option Int :=
  match splitOnColon (stripScheme l).2 with
  | [portStr] => parsePortChars portStr
  | [_, portStr] => parsePortChars portStr
  | _ => none

/-! ### Client connection state machine

Modelled from the spec: the client lifecycle operations live in client.ts
(and its C# peer), neither under src/; the in-repo record is the lifecycle
test class (src/unnamed/part_000, `ClientTests`) and spec sections 3 and
4.4: Disconnected → (start) → Connecting → (handshake success) → Connected;
a successful `stop` ends Disconnected; `forceStop` always ends Disconnected
whatever the prior state; `createSession` is an outbound request and does
not change the connection state. -/

inductive ConnState where
  | disconnected
  | connecting
  | connected
  | error
deriving DecidableEq, Repr

/-- Modelled from the spec: a `start` that completes successfully (handshake
succeeded) leaves the state Connected; a failed one leaves Error. -/
def startClient (_s : ConnState) (handshakeOk : Bool) : ConnState :=
  if handshakeOk then .connected else .error

/-- Modelled from the spec: a successful graceful `stop` leaves the state
Disconnected. -/
def stopClient (_s : ConnState) : ConnState :=
  .disconnected

/-- Modelled from the spec: `forceStop` is best-effort and always leaves the
state Disconnected, from any prior state. -/
def forceStopClient (_s : ConnState) : ConnState :=
  .disconnected

/-- Modelled from the spec: `createSession` issues a create request over the
live connection and leaves the connection state unchanged. -/
def createSessionState (s : ConnState) : ConnState :=
  s

/-! ### Helper lemmas about the sendAndWait listener -/

/-- Before the send has begun, the listener ignores every event. -/
theorem onEvent_not_started (st : WaitState) (e : SessionEvent)
    (h : st.sendStarted = false) : onEvent st e = st := by
  simp [onEvent, h]

/-- Folding any pre-send trace leaves the initial wait state unchanged. -/
theorem foldl_onEvent_not_started (pre : List SessionEvent) :
    pre.foldl onEvent
        { sendStarted := false, lastAssistantMessage := none, idleResolved := false }
      = { sendStarted := false, lastAssistantMessage := none, idleResolved := false } := by
  induction pre with
  | nil => rfl
  | cons e rest ih =>
    rw [List.foldl_cons, onEvent_not_started _ _ rfl, ih]

/-- A non-idle event never resolves the idle promise. -/
theorem onEvent_keeps_idle_unresolved (st : WaitState) (e : SessionEvent)
    (h : st.idleResolved = false) (he : e.type ≠ "session.idle") :
    (onEvent st e).idleResolved = false := by
  unfold onEvent
  cases hs : st.sendStarted with
  | false => simpa [hs] using h
  | true =>
    by_cases ha : e.type = "assistant.message"
    · simp [hs, ha, h]
    · simp [hs, ha, he, h]

/-- After the send began, an idle event resolves the idle promise and leaves
the accumulated assistant message untouched. -/
theorem onEvent_idle_started (st : WaitState) (e : SessionEvent)
    (hs : st.sendStarted = true) (he : e.type = "session.idle") :
    onEvent st e = { st with idleResolved := true } := by
  simp [onEvent, hs, he]

/-- After the send began, an assistant-message event replaces the
accumulated assistant message. -/
theorem onEvent_assistant_started (st : WaitState) (e : SessionEvent)
    (hs : st.sendStarted = true) (ha : e.type = "assistant.message") :
    onEvent st e = { st with lastAssistantMessage := some e } := by
  simp [onEvent, hs, ha]

/-- After the send began, any other event leaves the wait state unchanged. -/
theorem onEvent_other_started (st : WaitState) (e : SessionEvent)
    (hs : st.sendStarted = true) (ha : e.type ≠ "assistant.message")
    (hi : e.type ≠ "session.idle") : onEvent st e = st := by
  simp [onEvent, hs, ha, hi]

/-- A trace without any idle event leaves the idle promise pending. -/
theorem waitForIdle_no_idle (post : List SessionEvent) :
    ∀ st : WaitState, st.idleResolved = false →
      (∀ e ∈ post, e.type ≠ "session.idle") → waitForIdle st post = none := by
  induction post with
  | nil => intro st _ _; rfl
  | cons e rest ih =>
    intro st h hall
    have he : e.type ≠ "session.idle" := hall e (List.mem_cons_self e rest)
    have h2 : (onEvent st e).idleResolved = false :=
      onEvent_keeps_idle_unresolved st e h he
    unfold waitForIdle
    simp only [h2, if_false, Bool.false_eq_true]
    exact ih _ h2 (fun x hx => hall x (List.mem_cons_of_mem e hx))

/-- With the send begun and the idle promise pending, the wait resolves at
the first idle event, returning the most recent assistant message among the
events before it (or the value accumulated before them). -/
theorem waitForIdle_first_idle (a : List SessionEvent) :
    ∀ (m : Option SessionEvent) (ie : SessionEvent) (b : List SessionEvent),
      ie.type = "session.idle" →
      (∀ e ∈ a, e.type ≠ "session.idle") →
      waitForIdle
          { sendStarted := true, lastAssistantMessage := m, idleResolved := false }
          (a ++ ie :: b)
        = some (orElseOpt (lastAssistantIn a) m) := by
  induction a with
  | nil =>
    intro m ie b hie _
    simp only [List.nil_append, waitForIdle]
    rw [onEvent_idle_started _ _ rfl hie]
    simp [lastAssistantIn, orElseOpt]
  | cons e a ih =>
    intro m ie b hie hall
    have he : e.type ≠ "session.idle" := hall e (List.mem_cons_self e a)
    have hall2 : ∀ x ∈ a, x.type ≠ "session.idle" :=
      fun x hx => hall x (List.mem_cons_of_mem e hx)
    rw [List.cons_append]
    simp only [waitForIdle]
    by_cases ha : e.type = "assistant.message"
    · rw [onEvent_assistant_started _ _ rfl ha]
      simp only [if_false, Bool.false_eq_true]
      rw [ih (some e) ie b hie hall2]
      cases hL : lastAssistantIn a <;> simp [lastAssistantIn, hL, ha, orElseOpt]
    · rw [onEvent_other_started _ _ rfl ha he]
      simp only [if_false, Bool.false_eq_true]
      rw [ih m ie b hie hall2]
      cases hL : lastAssistantIn a <;> simp [lastAssistantIn, hL, ha, orElseOpt]

/-- When every idle event of the timed trace is delivered at or after the
timeout instant, the race is won by the timer. -/
theorem raceIdle_times_out (post : List (Nat × SessionEvent)) :
    ∀ (st : WaitState) (timeout : Nat), st.idleResolved = false →
      (∀ te ∈ post, te.2.type = "session.idle" → timeout ≤ te.1) →
      raceIdle st timeout post = .error (timeoutMessage timeout) := by
  induction post with
  | nil => intro st timeout _ _; rfl
  | cons te rest ih =>
    intro st timeout h hall
    obtain ⟨t, e⟩ := te
    unfold raceIdle
    by_cases hle : timeout ≤ t
    · simp [hle]
    · have he : e.type ≠ "session.idle" := by
        intro hty
        exact hle (hall (t, e) (List.mem_cons_self _ rest) hty)
      have h2 : (onEvent st e).idleResolved = false :=
        onEvent_keeps_idle_unresolved st e h he
      simp only [hle, if_false, h2, Bool.false_eq_true]
      exact ih _ timeout h2 (fun x hx => hall x (List.mem_cons_of_mem _ hx))

/-! ### Claim theorems -/

/-- C1: a tool-call envelope whose tool name is not registered in the target
Session's handler map yields the structured failure result with error
"tool \x27<name>\x27 not supported", and a registered handler that throws is
converted to the same failure-result shape carrying the handler's error
message; the dispatch path itself never throws and produces exactly one wire
response per request (`handleToolCallRequest` is a total function into
`ToolResultObject`). -/
theorem toolCall_dispatch_failure_shape (s : CopilotSession) (inv : ToolInvocation) :
    (getToolHandler s inv.toolName = none →
      handleToolCallRequest s inv
        = failureResult ("tool \x27" ++ inv.toolName ++ "\x27 not supported")) ∧
    (∀ (handler : ToolHandler) (msg : String),
      getToolHandler s inv.toolName = some handler →
      handler inv.arguments inv = .error msg →
      handleToolCallRequest s inv = failureResult msg) := by
  constructor
  · intro hnone
    unfold handleToolCallRequest
    rw [hnone]
  · intro handler msg hsome hthrow
    unfold handleToolCallRequest
    simp only [hsome, hthrow]

/-- Witness for C1: the unit-test scenario — a session with no registered
tools asked for "missing_tool" — produces the standardized failure result,
and a session whose registered handler throws "boom" produces the failure
result carrying "boom". -/
theorem toolCall_dispatch_failure_shape_witness :
    handleToolCallRequest
        { sessionId := "s", eventHandlers := [], toolHandlers := [],
          permissionHandler := none }
        { sessionId := "s", toolCallId := "123", toolName := "missing_tool",
          arguments := "" }
      = failureResult ("tool \x27" ++ "missing_tool" ++ "\x27 not supported") ∧
    ("tool \x27" ++ "missing_tool" ++ "\x27 not supported"
      = "tool \x27missing_tool\x27 not supported") ∧
    handleToolCallRequest
        { sessionId := "s", eventHandlers := [],
          toolHandlers := [("boomTool", fun _ _ => .error "boom")],
          permissionHandler := none }
        { sessionId := "s", toolCallId := "1", toolName := "boomTool",
          arguments := "" }
      = failureResult "boom" := by
  refine ⟨(toolCall_dispatch_failure_shape _ _).1 rfl, by decide, ?_⟩
  exact (toolCall_dispatch_failure_shape _ _).2 (fun _ _ => .error "boom") "boom" rfl rfl

/-- C2: every inbound permission request resolves to a concrete decision —
with no registered handler `_handlePermissionRequest` returns the fixed
denial, and a registered handler that throws or rejects is converted to the
same fixed denial; the method never rejects (its embedding is a total
function into `PermissionRequestResult`). -/
theorem permission_request_always_decided (s : CopilotSession) (req : PermissionRequest) :
    (s.permissionHandler = none → handlePermissionRequest s req = fixedDenial) ∧
    (∀ (handler : PermissionHandler) (msg : String),
      s.permissionHandler = some handler →
      handler req s.sessionId = .error msg →
      handlePermissionRequest s req = fixedDenial) := by
  constructor
  · intro hnone
    unfold handlePermissionRequest
    rw [hnone]
  · intro handler msg hsome hthrow
    unfold handlePermissionRequest
    simp only [hsome, hthrow]

/-- Witness for C2: a session with no permission handler, and one whose
handler throws, both yield the fixed denial. -/
theorem permission_request_always_decided_witness :
    handlePermissionRequest
        { sessionId := "s", eventHandlers := [], toolHandlers := [],
          permissionHandler := none }
        { kind := "shell" }
      = fixedDenial ∧
    handlePermissionRequest
        { sessionId := "s", eventHandlers := [], toolHandlers := [],
          permissionHandler := some (fun _ _ => .error "boom") }
        { kind := "write" }
      = fixedDenial := by
  exact ⟨(permission_request_always_decided _ _).1 rfl,
    (permission_request_always_decided _ _).2 (fun _ _ => .error "boom") "boom" rfl rfl⟩

/-- C3 counterexample: `destroy` does not clear local state when the remote
destroy request fails. At a concrete session holding one event subscriber,
one tool handler and a permission handler, a rejecting remote request leaves
all three registered, refuting the claim that local state is cleared
unconditionally. -/
theorem destroy_counterexample_state_kept_on_failure :
    ¬((destroy
        { sessionId := "s", eventHandlers := [7],
          toolHandlers := [("t", fun _ _ => .error "x")],
          permissionHandler := some (fun _ _ => .ok fixedDenial) }
        (.error "connection failed")).2.eventHandlers = []) ∧
    (getToolHandler
        (destroy
          { sessionId := "s", eventHandlers := [7],
            toolHandlers := [("t", fun _ _ => .error "x")],
            permissionHandler := some (fun _ _ => .ok fixedDenial) }
          (.error "connection failed")).2 "t").isSome = true ∧
    ((destroy
        { sessionId := "s", eventHandlers := [7],
          toolHandlers := [("t", fun _ _ => .error "x")],
          permissionHandler := some (fun _ _ => .ok fixedDenial) }
        (.error "connection failed")).2.permissionHandler).isSome = true := by
  refine ⟨?_, rfl, rfl⟩
  decide

/-- C3 amended: `destroy` clears the Session's local state (event
subscribers, tool handler map, permission handler) exactly when the remote
destroy request succeeds; when the remote request rejects, `destroy` rejects
with that error and the local state is left unchanged. -/
theorem destroy_clears_state_only_on_success (s : CopilotSession) (e : String) :
    destroy s (.ok ()) = (.ok (), clearLocalState s) ∧
    (clearLocalState s).eventHandlers = [] ∧
    (clearLocalState s).toolHandlers = [] ∧
    (clearLocalState s).permissionHandler = none ∧
    destroy s (.error e) = (.error e, s) :=
  ⟨rfl, rfl, rfl, rfl, rfl⟩

/-- C4: `sendAndWait` counts only session events that arrive after the send
began — any trace whose post-send part contains no "session.idle" event
leaves the wait pending (in particular an idle event delivered before the
send began never resolves it), and when the post-send part does contain an
idle event the wait resolves at the first one with the most recent
"assistant.message" event observed after the send began and before it (or
`none` when there was none). -/
theorem sendAndWait_counts_only_post_send_events :
    (∀ pre post : List SessionEvent,
      (∀ e ∈ post, e.type ≠ "session.idle") →
      sendAndWaitModel pre post = none) ∧
    (∀ (pre a : List SessionEvent) (ie : SessionEvent) (b : List SessionEvent),
      ie.type = "session.idle" →
      (∀ e ∈ a, e.type ≠ "session.idle") →
      sendAndWaitModel pre (a ++ ie :: b) = some (lastAssistantIn a)) := by
  constructor
  · intro pre post hall
    unfold sendAndWaitModel
    rw [foldl_onEvent_not_started]
    exact waitForIdle_no_idle post _ rfl hall
  · intro pre a ie b hie hall
    unfold sendAndWaitModel
    rw [foldl_onEvent_not_started]
    have h := waitForIdle_first_idle a none ie b hie hall
    rw [h]
    cases hL : lastAssistantIn a <;> simp [orElseOpt, hL]

/-- Witness for C4: an idle event delivered before the send began does not
resolve the wait, and a post-send trace of two assistant messages followed
by idle resolves with the second message. -/
theorem sendAndWait_counts_only_post_send_events_witness :
    sendAndWaitModel [{ type := "session.idle", data := "" }] [] = none ∧
    sendAndWaitModel []
        ([{ type := "assistant.message", data := "first" },
          { type := "assistant.message", data := "second" }]
          ++ { type := "session.idle", data := "" } :: [])
      = some (some { type := "assistant.message", data := "second" }) := by
  constructor
  · exact sendAndWait_counts_only_post_send_events.1 _ [] (by intro e he; cases he)
  · have h := sendAndWait_counts_only_post_send_events.2 []
      [{ type := "assistant.message", data := "first" },
       { type := "assistant.message", data := "second" }]
      { type := "session.idle", data := "" } [] rfl (by decide)
    rw [h]
    decide

/-- C5: with a finite timeout and no idle notification delivered before the
timer fires, `sendAndWait` rejects with the timeout error rather than
hanging, and the timeout cancels only the wait — the underlying send was
issued exactly once and is neither cancelled nor retried. -/
theorem sendAndWait_timeout_rejects_without_cancelling
    (pre : List SessionEvent) (post : List (Nat × SessionEvent)) (timeout : Nat)
    (hidle : ∀ te ∈ post, te.2.type = "session.idle" → timeout ≤ te.1) :
    (sendAndWaitWithTimeout pre post timeout).outcome
      = .error (timeoutMessage timeout) ∧
    (sendAndWaitWithTimeout pre post timeout).sendCount = 1 ∧
    (sendAndWaitWithTimeout pre post timeout).sendCancelled = false := by
  refine ⟨?_, rfl, rfl⟩
  show raceIdle _ timeout post = _
  rw [foldl_onEvent_not_started]
  exact raceIdle_times_out post _ timeout rfl hidle

/-- Witness for C5: an assistant message at 5ms and the idle notification at
10ms, raced against a 7ms timeout, reject with the timeout error while the
send was issued once and not cancelled. -/
theorem sendAndWait_timeout_rejects_without_cancelling_witness :
    (sendAndWaitWithTimeout []
        [(5, { type := "assistant.message", data := "a" }),
         (10, { type := "session.idle", data := "" })] 7).outcome
      = .error (timeoutMessage 7) ∧
    (sendAndWaitWithTimeout []
        [(5, { type := "assistant.message", data := "a" }),
         (10, { type := "session.idle", data := "" })] 7).sendCount = 1 ∧
    (sendAndWaitWithTimeout []
        [(5, { type := "assistant.message", data := "a" }),
         (10, { type := "session.idle", data := "" })] 7).sendCancelled = false := by
  refine sendAndWait_timeout_rejects_without_cancelling _ _ _ ?_
  intro te hte hty
  rcases hte with _ | ⟨_, hte⟩
  · exact absurd hty (by decide)
  · rcases hte with _ | ⟨_, hte⟩
    · decide
    · cases hte

/-! ### Helper lemmas about target parsing -/

/-- A list begins with itself followed by anything. -/
theorem beginsWith_self_append (p r : List Char) : beginsWith p (p ++ r) = true := by
  induction p with
  | nil => rfl
  | cons c cs ih => simp [beginsWith, ih]

/-- A list of digits cannot begin with a pattern whose head is not a digit. -/
theorem beginsWith_head_not_digit (p : Char) (ps l : List Char)
    (hl : l.all Char.isDigit = true) (hp : p.isDigit = false) :
    beginsWith (p :: ps) l = false := by
  cases l with
  | nil => rfl
  | cons c cs =>
    rw [List.all_cons, Bool.and_eq_true] at hl
    have hpc : p ≠ c := by
      intro h
      rw [h, hl.1] at hp
      cases hp
    simp [beginsWith, hpc]

/-- A target with no scheme is returned unchanged by `stripScheme`. -/
theorem stripScheme_no_scheme (l : List Char)
    (h1 : beginsWith httpSchemeChars l = false)
    (h2 : beginsWith httpsSchemeChars l = false) :
    stripScheme l = (false, l) := by
  unfold stripScheme
  rw [h1, h2]
  simp

/-- A digit string has no scheme. -/
theorem stripScheme_all_digits (l : List Char) (h : l.all Char.isDigit = true) :
    stripScheme l = (false, l) := by
  have h1 : beginsWith httpSchemeChars l = false := by
    unfold httpSchemeChars
    exact beginsWith_head_not_digit _ _ _ h (by decide)
  have h2 : beginsWith httpsSchemeChars l = false := by
    unfold httpsSchemeChars
    exact beginsWith_head_not_digit _ _ _ h (by decide)
  exact stripScheme_no_scheme l h1 h2

/-- For a list with a concrete 7-element head, drop 7 strips it. -/
theorem drop_seven_http (r : List Char) :
    List.drop 7 (httpSchemeChars ++ r) = r := rfl

/-- For a list with a concrete 8-element head, drop 8 strips it. -/
theorem drop_eight_https (r : List Char) :
    List.drop 8 (httpsSchemeChars ++ r) = r := rfl

/-- Stripping "http://" from a string that has it. -/
theorem stripScheme_http (r : List Char) :
    stripScheme (httpSchemeChars ++ r) = (true, r) := by
  unfold stripScheme
  rw [beginsWith_self_append]
  simp [drop_seven_http]

/-- Stripping "https://" from a string that has it. -/
theorem stripScheme_https (r : List Char) :
    stripScheme (httpsSchemeChars ++ r) = (true, r) := by
  unfold stripScheme
  have h1 : beginsWith httpSchemeChars (httpsSchemeChars ++ r) = false := rfl
  rw [h1, beginsWith_self_append]
  simp [drop_eight_https]

/-- Digits are not colons. -/
theorem no_colon_of_all_digits (l : List Char) (h : l.all Char.isDigit = true) :
    ∀ c ∈ l, c ≠ ':' := by
  intro c hc heq
  rw [List.all_eq_true] at h
  have hd := h c hc
  rw [heq] at hd
  exact absurd hd (by decide)

/-- Splitting a colon-free list gives the list itself as the only piece. -/
theorem splitOnColon_no_colon (l : List Char) (h : ∀ c ∈ l, c ≠ ':') :
    splitOnColon l = [l] := by
  induction l with
  | nil => rfl
  | cons c cs ih =>
    have hc : c ≠ ':' := h c (List.mem_cons_self c cs)
    have ih2 := ih (fun x hx => h x (List.mem_cons_of_mem c hx))
    unfold splitOnColon
    simp [hc, ih2]

/-- Splitting at the only colon between a colon-free head and the rest. -/
theorem splitOnColon_append (h s : List Char) (hh : ∀ c ∈ h, c ≠ ':') :
    splitOnColon (h ++ ':' :: s) = h :: splitOnColon s := by
  induction h with
  | nil => simp [splitOnColon]
  | cons c cs ih =>
    have hc : c ≠ ':' := hh c (List.mem_cons_self c cs)
    have ih2 := ih (fun x hx => hh x (List.mem_cons_of_mem c hx))
    rw [List.cons_append]
    simp only [splitOnColon, ih2]
    simp [hc]

/-- A nonempty digit string parses to its value. -/
theorem parseNatDigits_digits (l : List Char) (h1 : l ≠ [])
    (h2 : l.all Char.isDigit = true) : parseNatDigits l = some (digitsVal l) := by
  unfold parseNatDigits
  simp [h1, h2]

/-- A nonempty digit string parses as the nonnegative port integer of its
value. -/
theorem parsePortChars_digits (l : List Char) (h1 : l ≠ [])
    (h2 : l.all Char.isDigit = true) :
    parsePortChars l = some (Int.ofNat (digitsVal l)) := by
  cases l with
  | nil => exact absurd rfl h1
  | cons c cs =>
    have hc : c ≠ '-' := by
      intro h
      rw [h, List.all_cons, Bool.and_eq_true] at h2
      exact absurd h2.1 (by decide)
    simp only [parsePortChars]
    rw [if_neg hc, parseNatDigits_digits _ h1 h2]
    rfl

/-- A single valid-port piece resolves to localhost and that port. -/
theorem resolveSplit_single_valid (portStr : List Char) (p : Nat)
    (hp : parsePortChars portStr = some (Int.ofNat p))
    (hlo : 1 ≤ p) (hhi : p ≤ 65535) :
    resolveSplit false [portStr] = .ok ("localhost".data, p) := by
  simp [resolveSplit, hp, hlo, hhi]

/-- A nonempty host and a valid-port piece resolve to that host and port,
with or without a scheme. -/
theorem resolveSplit_pair_valid (hadScheme : Bool) (host portStr : List Char)
    (p : Nat) (hhost : host ≠ [])
    (hp : parsePortChars portStr = some (Int.ofNat p))
    (hlo : 1 ≤ p) (hhi : p ≤ 65535) :
    resolveSplit hadScheme [host, portStr] = .ok (host, p) := by
  simp [resolveSplit, hp, hlo, hhi, hhost]

/-- Port-only target resolution: a digit string whose value is a valid port
resolves to localhost and that port. -/
theorem parseTarget_port_only (portStr : List Char) (p : Nat)
    (h1 : portStr ≠ []) (h2 : portStr.all Char.isDigit = true)
    (hval : digitsVal portStr = p) (hlo : 1 ≤ p) (hhi : p ≤ 65535) :
    parseTargetChars portStr = .ok ("localhost".data, p) := by
  unfold parseTargetChars
  rw [stripScheme_all_digits portStr h2]
  show resolveSplit false (splitOnColon portStr) = _
  rw [splitOnColon_no_colon portStr (no_colon_of_all_digits portStr h2)]
  exact resolveSplit_single_valid portStr p
    (by rw [parsePortChars_digits portStr h1 h2, hval]) hlo hhi

/-- Host:port target resolution without a scheme. -/
theorem parseTarget_host_port (host portStr : List Char) (p : Nat)
    (hhost : host ≠ []) (hcolon : ∀ c ∈ host, c ≠ ':')
    (hb1 : beginsWith httpSchemeChars (host ++ ':' :: portStr) = false)
    (hb2 : beginsWith httpsSchemeChars (host ++ ':' :: portStr) = false)
    (h1 : portStr ≠ []) (h2 : portStr.all Char.isDigit = true)
    (hval : digitsVal portStr = p) (hlo : 1 ≤ p) (hhi : p ≤ 65535) :
    parseTargetChars (host ++ ':' :: portStr) = .ok (host, p) := by
  unfold parseTargetChars
  rw [stripScheme_no_scheme _ hb1 hb2]
  show resolveSplit false (splitOnColon (host ++ ':' :: portStr)) = _
  rw [splitOnColon_append host portStr hcolon,
    splitOnColon_no_colon portStr (no_colon_of_all_digits portStr h2)]
  exact resolveSplit_pair_valid false host portStr p hhost
    (by rw [parsePortChars_digits portStr h1 h2, hval]) hlo hhi

/-- Host:port target resolution behind the http scheme. -/
theorem parseTarget_http_host_port (host portStr : List Char) (p : Nat)
    (hhost : host ≠ []) (hcolon : ∀ c ∈ host, c ≠ ':')
    (h1 : portStr ≠ []) (h2 : portStr.all Char.isDigit = true)
    (hval : digitsVal portStr = p) (hlo : 1 ≤ p) (hhi : p ≤ 65535) :
    parseTargetChars (httpSchemeChars ++ (host ++ ':' :: portStr)) = .ok (host, p) := by
  unfold parseTargetChars
  rw [stripScheme_http]
  show resolveSplit true (splitOnColon (host ++ ':' :: portStr)) = _
  rw [splitOnColon_append host portStr hcolon,
    splitOnColon_no_colon portStr (no_colon_of_all_digits portStr h2)]
  exact resolveSplit_pair_valid true host portStr p hhost
    (by rw [parsePortChars_digits portStr h1 h2, hval]) hlo hhi

/-- Host:port target resolution behind the https scheme. -/
theorem parseTarget_https_host_port (host portStr : List Char) (p : Nat)
    (hhost : host ≠ []) (hcolon : ∀ c ∈ host, c ≠ ':')
    (h1 : portStr ≠ []) (h2 : portStr.all Char.isDigit = true)
    (hval : digitsVal portStr = p) (hlo : 1 ≤ p) (hhi : p ≤ 65535) :
    parseTargetChars (httpsSchemeChars ++ (host ++ ':' :: portStr)) = .ok (host, p) := by
  unfold parseTargetChars
  rw [stripScheme_https]
  show resolveSplit true (splitOnColon (host ++ ':' :: portStr)) = _
  rw [splitOnColon_append host portStr hcolon,
    splitOnColon_no_colon portStr (no_colon_of_all_digits portStr h2)]
  exact resolveSplit_pair_valid true host portStr p hhost
    (by rw [parsePortChars_digits portStr h1 h2, hval]) hlo hhi

/-- A target that does not match the grammar structurally resolves to the
invalid-target failure. -/
theorem parseTarget_invalid_of_not_grammar (l : List Char)
    (h : matchesTargetGrammar l = false) :
    parseTargetChars l = .error .invalidTarget := by
  unfold matchesTargetGrammar at h
  unfold parseTargetChars
  rcases hs : splitOnColon (stripScheme l).2 with _ | ⟨a, _ | ⟨b, _ | ⟨c, rest⟩⟩⟩
  · simp [resolveSplit]
  · rw [hs] at h
    simp only [Bool.and_eq_false_iff, Bool.not_eq_false'] at h
    rcases h with h | h
    · simp [resolveSplit, h]
    · have h2 : parsePortChars a = none := by
        cases hpc : parsePortChars a with
        | none => rfl
        | some x => rw [hpc] at h; cases h
      cases hsc : (stripScheme l).1 <;> simp [resolveSplit, h2, hsc]
  · rw [hs] at h
    simp only [Bool.and_eq_false_iff, Bool.not_eq_false'] at h
    rcases h with h | h
    · rw [decide_eq_true_eq] at h
      simp [resolveSplit, h]
    · have h2 : parsePortChars b = none := by
        cases hpc : parsePortChars b with
        | none => rfl
        | some x => rw [hpc] at h; cases h
      by_cases hb : a = [] <;> simp [resolveSplit, h2, hb]
  · simp [resolveSplit]

theorem parseTarget_invalid_port (l : List Char) (q : Int)
    (hg : matchesTargetGrammar l = true) (hp : targetPort l = some q)
    (hrange : ¬(1 ≤ q ∧ q ≤ 65535)) :
    parseTargetChars l = .error .invalidPort := by
  unfold matchesTargetGrammar at hg
  unfold targetPort at hp
  unfold parseTargetChars
  rcases hs : splitOnColon (stripScheme l).2 with _ | ⟨a, _ | ⟨b, _ | ⟨c, rest⟩⟩⟩
  · rw [hs] at hg
    simp at hg
  · rw [hs] at hg hp
    simp only [Bool.and_eq_true, Bool.not_eq_true'] at hg
    simp only [] at hp
    simp [resolveSplit, hg.1, hp, hrange]
  · rw [hs] at hg hp
    simp only [Bool.and_eq_true, Bool.not_eq_true',
      decide_eq_false_iff_not] at hg
    simp only [] at hp
    simp [resolveSplit, hg.1, hp, hrange]
  · rw [hs] at hg
    simp at hg

/-- Dispatch invokes exactly the subscribers, each once, in order, no matter
what the handlers do. -/
theorem dispatchEvent_fst (behavior : Nat → SessionEvent → Except String Unit)
    (e : SessionEvent) : ∀ subs : List Nat,
    (dispatchEvent behavior subs e).map Prod.fst = subs := by
  intro subs
  induction subs with
  | nil => rfl
  | cons i rest ih => simp [dispatchEvent, ih]

/-- A handler is subscribed after being registered. -/
theorem mem_addEventHandler (subs : List Nat) (h : Nat) :
    h ∈ addEventHandler subs h := by
  unfold addEventHandler
  by_cases hm : h ∈ subs
  · simp [hm]
  · simp [hm]

/-- C6: every remote-target string in the accepted grammar resolves to
exactly the host and port it encodes, with the host defaulting to localhost
for the bare-port form, and the resulting client configuration is marked
externally managed with no process spawned for it — concretely on the three
unit-test vectors and generally for every digit string and every
`host:port`, `http://host:port`, `https://host:port` shape. -/
theorem remote_target_parsing_recovers_host_port :
    parseCliUrl "8080" = .ok ("localhost", 8080) ∧
    parseCliUrl "127.0.0.1:9000" = .ok ("127.0.0.1", 9000) ∧
    parseCliUrl "https://example.com:443" = .ok ("example.com", 443) ∧
    resolveClient { cliUrl := some "8080" }
      = .ok { actualHost := "localhost", actualPort := 8080,
              isExternalServer := true, useStdio := false,
              spawnedDuringConstruction := 0 } ∧
    (∀ url host port, parseCliUrl url = .ok (host, port) →
      resolveClient { cliUrl := some url }
        = .ok { actualHost := host, actualPort := port,
                isExternalServer := true, useStdio := false,
                spawnedDuringConstruction := 0 }) ∧
    (∀ (portStr : List Char) (p : Nat), portStr ≠ [] →
      portStr.all Char.isDigit = true → digitsVal portStr = p →
      1 ≤ p → p ≤ 65535 →
      parseTargetChars portStr = .ok ("localhost".data, p)) ∧
    (∀ (host portStr : List Char) (p : Nat), host ≠ [] →
      (∀ c ∈ host, c ≠ ':') →
      beginsWith httpSchemeChars (host ++ ':' :: portStr) = false →
      beginsWith httpsSchemeChars (host ++ ':' :: portStr) = false →
      portStr ≠ [] → portStr.all Char.isDigit = true → digitsVal portStr = p →
      1 ≤ p → p ≤ 65535 →
      parseTargetChars (host ++ ':' :: portStr) = .ok (host, p)) ∧
    (∀ (host portStr : List Char) (p : Nat), host ≠ [] →
      (∀ c ∈ host, c ≠ ':') →
      portStr ≠ [] → portStr.all Char.isDigit = true → digitsVal portStr = p →
      1 ≤ p → p ≤ 65535 →
      parseTargetChars (httpSchemeChars ++ (host ++ ':' :: portStr)) = .ok (host, p) ∧
      parseTargetChars (httpsSchemeChars ++ (host ++ ':' :: portStr)) = .ok (host, p)) := by
  refine ⟨rfl, rfl, rfl, rfl, ?_, ?_, ?_, ?_⟩
  · intro url host port h
    simp [resolveClient, h]
  · intro portStr p h1 h2 hval hlo hhi
    exact parseTarget_port_only portStr p h1 h2 hval hlo hhi
  · intro host portStr p hhost hcolon hb1 hb2 h1 h2 hval hlo hhi
    exact parseTarget_host_port host portStr p hhost hcolon hb1 hb2 h1 h2 hval hlo hhi
  · intro host portStr p hhost hcolon h1 h2 hval hlo hhi
    exact ⟨parseTarget_http_host_port host portStr p hhost hcolon h1 h2 hval hlo hhi,
      parseTarget_https_host_port host portStr p hhost hcolon h1 h2 hval hlo hhi⟩

/-- Witness for C6: the general grammar clauses instantiated at concrete
inputs — the bare digit string "9000", the pair "myhost":"123", and the two
scheme forms around it — and the resolved-client clause at "127.0.0.1:9000". -/
theorem remote_target_parsing_recovers_host_port_witness :
    parseTargetChars ("9000".data) = .ok ("localhost".data, 9000) ∧
    parseTargetChars ("myhost".data ++ ':' :: "123".data) = .ok ("myhost".data, 123) ∧
    parseTargetChars (httpSchemeChars ++ ("myhost".data ++ ':' :: "123".data))
      = .ok ("myhost".data, 123) ∧
    parseTargetChars (httpsSchemeChars ++ ("myhost".data ++ ':' :: "123".data))
      = .ok ("myhost".data, 123) ∧
    resolveClient { cliUrl := some "127.0.0.1:9000" }
      = .ok { actualHost := "127.0.0.1", actualPort := 9000,
              isExternalServer := true, useStdio := false,
              spawnedDuringConstruction := 0 } := by
  obtain ⟨-, -, -, -, hres, hport, hpair, hscheme⟩ :=
    remote_target_parsing_recovers_host_port
  have hsch := hscheme ("myhost".data) ("123".data) 123 (by decide) (by decide)
    (by decide) (by decide) (by decide) (by decide) (by decide)
  exact ⟨hport ("9000".data) 9000 (by decide) (by decide) (by decide) (by decide)
      (by decide),
    hpair ("myhost".data) ("123".data) 123 (by decide) (by decide) (by decide)
      (by decide) (by decide) (by decide) (by decide) (by decide) (by decide),
    hsch.1, hsch.2,
    hres "127.0.0.1:9000" "127.0.0.1" 9000 rfl⟩

/-- C7: a remote-target string matching no accepted grammar form fails with
the invalid-target error, and a string whose parsed port is not an integer
in [1, 65535] — including 0, negatives and values above 65535 — fails with
the invalid-port error; both failures are raised synchronously by target
resolution at client construction, as on the four unit-test vectors. -/
theorem remote_target_invalid_forms_fail :
    parseCliUrl "invalid-url" = .error .invalidTarget ∧
    parseCliUrl "localhost:99999" = .error .invalidPort ∧
    parseCliUrl "localhost:0" = .error .invalidPort ∧
    parseCliUrl "localhost:-1" = .error .invalidPort ∧
    resolveClient { cliUrl := some "invalid-url" } = .error .invalidTarget ∧
    resolveClient { cliUrl := some "localhost:0" } = .error .invalidPort ∧
    (∀ l : List Char, matchesTargetGrammar l = false →
      parseTargetChars l = .error .invalidTarget) ∧
    (∀ (l : List Char) (q : Int), matchesTargetGrammar l = true →
      targetPort l = some q → ¬(1 ≤ q ∧ q ≤ 65535) →
      parseTargetChars l = .error .invalidPort) := by
  refine ⟨rfl, rfl, rfl, rfl, rfl, rfl, ?_, ?_⟩
  · intro l h
    exact parseTarget_invalid_of_not_grammar l h
  · intro l q hg hp hrange
    exact parseTarget_invalid_port l q hg hp hrange

/-- Witness for C7: the general clauses instantiated concretely — the
three-piece string "a:b:c" is rejected as an invalid target, and
"localhost:70000" carries the out-of-range port 70000 and is rejected as an
invalid port. -/
theorem remote_target_invalid_forms_fail_witness :
    parseTargetChars ("a:b:c".data) = .error .invalidTarget ∧
    parseTargetChars ("localhost:70000".data) = .error .invalidPort := by
  obtain ⟨-, -, -, -, -, -, htarget, hport⟩ := remote_target_invalid_forms_fail
  exact ⟨htarget ("a:b:c".data) (by decide),
    hport ("localhost:70000".data) 70000 (by decide) (by decide) (by decide)⟩

/-- C8: supplying a remote target together with an explicit local executable
path or an explicit transport-mode override fails client construction with
the conflicting-configuration error, and no construction outcome ever spawns
a process (spawning happens only in `start`). -/
theorem remote_target_conflicting_config_fails :
    (∀ (opts : ClientOptions) (url : String), opts.cliUrl = some url →
      (opts.cliPath.isSome = true ∨ opts.useStdio.isSome = true) →
      resolveClient opts = .error .conflictingConfig) ∧
    (∀ (opts : ClientOptions) (rc : ResolvedClient),
      resolveClient opts = .ok rc → rc.spawnedDuringConstruction = 0) := by
  constructor
  · intro opts url hurl hconf
    simp only [resolveClient, hurl]
    rw [if_pos hconf]
  · intro opts rc h
    cases hu : opts.cliUrl with
    | none =>
      simp only [resolveClient, hu] at h
      cases h
      rfl
    | some url =>
      simp only [resolveClient, hu] at h
      split at h
      · cases h
      · split at h
        · cases h
        · cases h
          rfl

/-- Witness for C8: a remote target with an explicit cliPath, and one with
an explicit useStdio, both fail with the conflicting-configuration error,
and the successfully constructed client for "8080" spawned nothing. -/
theorem remote_target_conflicting_config_fails_witness :
    resolveClient { cliUrl := some "localhost:8080", cliPath := some "/path/to/cli" }
      = .error .conflictingConfig ∧
    resolveClient { cliUrl := some "localhost:8080", useStdio := some true }
      = .error .conflictingConfig ∧
    ({ actualHost := "localhost", actualPort := 8080, isExternalServer := true,
       useStdio := false, spawnedDuringConstruction := 0 }
        : ResolvedClient).spawnedDuringConstruction = 0 := by
  refine ⟨remote_target_conflicting_config_fails.1 _ "localhost:8080" rfl (Or.inl rfl),
    remote_target_conflicting_config_fails.1 _ "localhost:8080" rfl (Or.inr rfl),
    remote_target_conflicting_config_fails.2 { cliUrl := some "8080" } _ rfl⟩

/-- C9: after a successful `start` the connection state is Connected, after
a successful `stop` it is Disconnected, and `forceStop` leaves it
Disconnected from every prior state — including immediately after session
creation with no prior graceful stop. -/
theorem client_state_machine_transitions :
    (∀ s : ConnState, startClient s true = .connected) ∧
    (∀ s : ConnState, stopClient s = .disconnected) ∧
    (∀ s : ConnState, forceStopClient s = .disconnected) ∧
    forceStopClient (createSessionState (startClient .disconnected true))
      = .disconnected :=
  ⟨fun _ => rfl, fun _ => rfl, fun _ => rfl, rfl⟩

/-- C10: `_dispatchEvent` invokes each currently-subscribed handler exactly
once with the event, in registration order, whatever the handlers do — a
throwing handler's outcome is recorded in the trace and does not remove any
later invocation, and the dispatch is a total function (it never throws);
and registering the same handler twice leaves the subscriber set, and hence
the dispatch trace, unchanged. -/
theorem dispatch_event_exactly_once_in_order
    (behavior : Nat → SessionEvent → Except String Unit)
    (subs : List Nat) (e : SessionEvent) (h : Nat) :
    (dispatchEvent behavior subs e).map Prod.fst = subs ∧
    addEventHandler (addEventHandler subs h) h = addEventHandler subs h ∧
    dispatchEvent behavior (addEventHandler (addEventHandler subs h) h) e
      = dispatchEvent behavior (addEventHandler subs h) e := by
  have hdup : addEventHandler (addEventHandler subs h) h = addEventHandler subs h := by
    show (if h ∈ addEventHandler subs h then addEventHandler subs h
          else addEventHandler subs h ++ [h]) = addEventHandler subs h
    rw [if_pos (mem_addEventHandler subs h)]
  exact ⟨dispatchEvent_fst behavior e subs, hdup, by rw [hdup]⟩

end CopilotSDK
